import Mathlib

/-!
Verification of the SQLite natural-language-to-SQL gateway
(`main.py` / `sample.py`): the statement gate, the execution and
formatting engine, and the orchestrating `execute_prompt` cycle.

Statements are modelled as `List Char`.  The database engine and the
completion service are external collaborators, modelled as explicit
parameters (`db : Str → DBResult`, `response : Except Unit Str`).
An unhandled exception in the cycle (the `IndexError` raised by
`normalized_sql.split()[0]` on an empty token list) is modelled as
`output = none`.
-/

namespace SqliteAgent

abbrev Str := List Char

/-- Python's ASCII `str.upper()` applied to one character; this is the
behaviour of `Char.toUpper` (maps `a`..`z` to `A`..`Z`, leaves every
other character unchanged). -/
def pyUpper (s : Str) : Str := s.map Char.toUpper

/-- Python's default whitespace set for `str.strip()` / `str.split()`
(space, tab, newline, carriage return, vertical tab, form feed). -/
def isPySpace (c : Char) : Bool :=
  c == ' ' || c == '\t' || c == '\n' || c == '\r' ||
    c == Char.ofNat 11 || c == Char.ofNat 12

/-- Python `str.strip()`: drop leading and trailing whitespace. -/
def pyStrip (s : Str) : Str :=
  ((s.dropWhile isPySpace).reverse.dropWhile isPySpace).reverse

/-- `normalized_sql = generated_sql.upper().strip()` (main.py line 134). -/
def normalized_sql (s : Str) : Str := pyStrip (pyUpper s)

/-- First element of Python `s.split()`: the first maximal run of
non-whitespace characters, or `none` when the statement is empty or
all whitespace (in which case `s.split()[0]` raises `IndexError`). -/
def firstToken (s : Str) : Option Str :=
  match s.dropWhile isPySpace with
  | [] => none
  | c :: cs => some ((c :: cs).takeWhile (fun a => !isPySpace a))

/-- Case-insensitive prefix test, as performed by a `re.IGNORECASE`
anchored alternative: both pattern and subject are uppercased before
the prefix comparison. -/
def icaseStartsWith (p s : Str) : Bool :=
  (pyUpper p).isPrefixOf (pyUpper s)

/-- The anchored regex `^(SELECT|PRAGMA TABLE_INFO|PRAGMA table_info)`
with `re.IGNORECASE` (main.py line 135): true iff one of the three
alternatives matches at the start of the subject. -/
def allowed_pattern (s : Str) : Bool :=
  icaseStartsWith "SELECT".toList s ||
    icaseStartsWith "PRAGMA TABLE_INFO".toList s ||
    icaseStartsWith "PRAGMA table_info".toList s

/-- The Gate's decision for a candidate statement: the allow-list regex
applied to the normalized statement (main.py line 137). -/
def gate_accepts (s : Str) : Bool := allowed_pattern (normalized_sql s)

/-- The fixed rejection message returned to the caller (main.py line 139). -/
def rejectionMessage : Str :=
  "Query rejected. Agent is restricted to SELECT/DESCRIBE only.".toList

/-- The no-results message (main.py line 154). -/
def noResultsMessage : Str :=
  "No results found for your query.".toList

/-- The execution-error message built from the engine's native error
text (main.py line 168). -/
def sqlErrorMessage (e : Str) : Str :=
  "Error executing SQL: ".toList ++ e

/-- The rejection log line (main.py line 138), which names the first
token of the offending normalized statement. -/
def securityLogMessage (tok : Str) : Str :=
  "❌ EXECUTE FAILURE: Security rejection of unauthorized command: ".toList ++
    tok ++ ".".toList

/-- The sentinel returned by `_llm_call` when the completion service
raises an `APIError` (main.py line 92). -/
def apiFailureSentinel : Str := "ERROR: API Call Failed".toList

/-- `_llm_call`: on success the service's text is stripped
(`response.text.strip()`, main.py line 89); on an `APIError` the
sentinel failure string is returned instead of raising. -/
def llm_call (response : Except Unit Str) : Str :=
  match response with
  | Except.ok text => pyStrip text
  | Except.error _ => apiFailureSentinel

/-- One result line of the rendered table:
`f"| {' | '.join(cells)} |"` (main.py lines 156 and 162). -/
def renderRow (cells : List Str) : Str :=
  "| ".toList ++ List.intercalate " | ".toList cells ++ " |".toList

/-- The separator line `f"|{'-' * (len(output[0]) - 2)}|"`
(main.py line 157). -/
def separatorLineFor (headerLine : Str) : Str :=
  '|' :: (List.replicate (headerLine.length - 2) '-' ++ ['|'])

/-- The full formatted answer for a non-empty result set
(main.py lines 156-164): header line, separator, one line per row,
joined by newlines after the `FINAL ANSWER` banner. -/
def finalAnswer (header : List Str) (rows : List (List Str)) : Str :=
  "\n\nFINAL ANSWER:\n".toList ++
    List.intercalate ['\n']
      (renderRow header :: separatorLineFor (renderRow header) :: rows.map renderRow)

/-- Outcome of one `cursor.execute` attempt: either the result
descriptor (ordered column names and rows of display-rendered scalar
values) or the engine's native error text (`sqlite3.Error`). -/
inductive DBResult where
  | ok (header : List Str) (rows : List (List Str))
  | err (msg : Str)
deriving DecidableEq

/-- Observable result of one request cycle: the statements passed to
`cursor.execute`, the security-rejection log line if one was emitted,
and the string returned to the caller (`none` models an unhandled
exception escaping `execute_prompt`). -/
structure CycleResult where
  executed : List Str
  securityLog : Option Str
  output : Option Str
deriving DecidableEq

/-- The validation-and-execution part of `SqliteAgent.execute_prompt`
(main.py lines 131-168), for a given generated statement and database
engine behaviour `db`.  If the allow-list regex does not match the
normalized statement, the rejection path logs the first token of the
normalized statement and returns the fixed rejection message — unless
the token list is empty, in which case `normalized_sql.split()[0]`
raises `IndexError` (modelled as `output = none`).  Otherwise the
original statement text is executed; an engine error becomes the
execution-error message, an empty result set the no-results message,
and a non-empty one the formatted table. -/
def execute_prompt (db : Str → DBResult) (generated_sql : Str) : CycleResult :=
  if !(allowed_pattern (normalized_sql generated_sql)) then
    match firstToken (normalized_sql generated_sql) with
    | none => { executed := [], securityLog := none, output := none }
    | some tok =>
        { executed := [], securityLog := some (securityLogMessage tok),
          output := some rejectionMessage }
  else
    match db generated_sql with
    | DBResult.err e =>
        { executed := [generated_sql], securityLog := none,
          output := some (sqlErrorMessage e) }
    | DBResult.ok header rows =>
        if rows.isEmpty then
          { executed := [generated_sql], securityLog := none,
            output := some noResultsMessage }
        else
          { executed := [generated_sql], securityLog := none,
            output := some (finalAnswer header rows) }

/-- A database stub used to instantiate theorems at concrete inputs. -/
def dbStub : Str → DBResult :=
  fun _ => DBResult.ok ["name".toList] [["Alice Smith".toList]]

/-- A database stub whose every query succeeds with zero rows. -/
def dbEmptyResult : Str → DBResult :=
  fun _ => DBResult.ok ["name".toList] []

/-- A database stub whose every query fails with a native engine error. -/
def dbFailure : Str → DBResult :=
  fun _ => DBResult.err "no such table: Projects".toList

/-! ### Helper lemmas about the normalizer and the gate -/

/-- For `97 ≤ n ≤ 122`, `Char.ofNat (n - 32)` is a valid character whose
code point is `n - 32`. -/
theorem toNat_ofNat_sub32 (n : Nat) (h1 : 97 ≤ n) (h2 : n ≤ 122) :
    (Char.ofNat (n - 32)).toNat = n - 32 := by
  interval_cases n <;> decide

/-- ASCII uppercasing is idempotent. -/
theorem toUpper_idem (c : Char) : c.toUpper.toUpper = c.toUpper := by
  by_cases h : 97 ≤ c.toNat ∧ c.toNat ≤ 122
  · have hc : c.toUpper = Char.ofNat (c.toNat - 32) := by
      simp [Char.toUpper, h.1, h.2]
    have h1 := toNat_ofNat_sub32 c.toNat h.1 h.2
    have h2 : ¬ 97 ≤ c.toNat - 32 := by omega
    rw [hc]
    simp [Char.toUpper, h1, h2]
  · have hc : c.toUpper = c := by
      rcases Decidable.not_and_iff_or_not.mp h with h' | h' <;> simp [Char.toUpper, h']
    rw [hc, hc]

/-- Every character of an uppercased string is a fixed point of
`Char.toUpper`. -/
theorem mem_pyUpper_fixed {s : Str} {c : Char} (hc : c ∈ pyUpper s) :
    c.toUpper = c := by
  rcases List.mem_map.mp hc with ⟨a, _, rfl⟩
  exact toUpper_idem a

/-- `pyStrip` only removes characters: membership is preserved. -/
theorem mem_of_mem_pyStrip {s : Str} {c : Char} (hc : c ∈ pyStrip s) :
    c ∈ s := by
  unfold pyStrip at hc
  rw [List.mem_reverse] at hc
  have h1 := (List.dropWhile_sublist (l := (s.dropWhile isPySpace).reverse) isPySpace).subset hc
  rw [List.mem_reverse] at h1
  exact (List.dropWhile_sublist (l := s) isPySpace).subset h1

/-- The normalized statement is its own uppercasing. -/
theorem pyUpper_normalized (s : Str) :
    pyUpper (normalized_sql s) = normalized_sql s := by
  have h : ∀ c ∈ normalized_sql s, c.toUpper = c := fun c hc =>
    mem_pyUpper_fixed (mem_of_mem_pyStrip hc)
  calc pyUpper (normalized_sql s)
      = (normalized_sql s).map id := List.map_congr_left h
    _ = normalized_sql s := List.map_id _

/-- Boolean prefix test agrees with the prefix relation. -/
theorem isPrefixOf_iff (l₁ l₂ : Str) : l₁.isPrefixOf l₂ = true ↔ l₁ <+: l₂ :=
  List.isPrefixOf_iff_prefix

/-! ### Claim theorems: the gate and the execution cycle -/

/-- C2: the Gate accepts a candidate statement exactly when its
normalized form (uppercased, leading/trailing whitespace stripped)
begins with the prefix `SELECT` or the prefix `PRAGMA TABLE_INFO`;
every other statement is rejected. -/
theorem gate_accepts_iff_allow_list (s : Str) :
    gate_accepts s = true ↔
      ("SELECT".toList <+: normalized_sql s ∨
        "PRAGMA TABLE_INFO".toList <+: normalized_sql s) := by
  have hu := pyUpper_normalized s
  have h1 : pyUpper "SELECT".toList = "SELECT".toList := by decide
  have h2 : pyUpper "PRAGMA TABLE_INFO".toList = "PRAGMA TABLE_INFO".toList := by decide
  have h3 : pyUpper "PRAGMA table_info".toList = "PRAGMA TABLE_INFO".toList := by decide
  unfold gate_accepts allowed_pattern icaseStartsWith
  rw [hu, h1, h2, h3]
  simp only [Bool.or_eq_true, isPrefixOf_iff]
  tauto

/-- C1: in every request cycle, the candidate statement is passed to the
database's execute operation if and only if the Gate accepts it: the
list of executed statements is `[s]` when the Gate accepts `s` and empty
otherwise (in particular no statement reaches execution on rejection,
including the crashing empty-token rejection path). -/
theorem executed_iff_gate_accepts (db : Str → DBResult) (s : Str) :
    (execute_prompt db s).executed = if gate_accepts s then [s] else [] := by
  unfold execute_prompt gate_accepts
  cases hb : allowed_pattern (normalized_sql s)
  · simp only [hb, Bool.not_false, if_true, if_false]
    cases firstToken (normalized_sql s) <;> rfl
  · simp only [hb, Bool.not_true, if_false, if_true]
    cases hdb : db s with
    | err e => rfl
    | ok header rows =>
      by_cases hr : rows.isEmpty <;> simp [hr]

/-- C4: for every accepted candidate statement, the text passed to the
database's execute operation is the original generated statement,
character for character — not the normalized form. -/
theorem executed_text_is_original (db : Str → DBResult) (s : Str)
    (h : gate_accepts s = true) :
    (execute_prompt db s).executed = [s] := by
  rw [executed_iff_gate_accepts, h, if_pos rfl]

/-- Witness for C4, at a statement whose original text differs from its
normalized form (lowercase keywords, surrounding whitespace). -/
theorem executed_text_is_original_witness :
    gate_accepts "  select name from Employees limit 100  ".toList = true ∧
      (execute_prompt dbStub "  select name from Employees limit 100  ".toList).executed
        = ["  select name from Employees limit 100  ".toList] :=
  ⟨by decide,
    executed_text_is_original dbStub "  select name from Employees limit 100  ".toList
      (by decide)⟩

/-- C6: when the completion service call fails, `_llm_call` returns the
sentinel failure string instead of raising; that sentinel fails the
Gate's allow-list match, and for any database behaviour the caller
receives the rejection message (and nothing is executed) rather than an
unhandled failure. -/
theorem api_failure_is_rejected :
    llm_call (Except.error ()) = apiFailureSentinel ∧
      gate_accepts apiFailureSentinel = false ∧
      ∀ db : Str → DBResult,
        (execute_prompt db apiFailureSentinel).executed = [] ∧
          (execute_prompt db apiFailureSentinel).output = some rejectionMessage := by
  refine ⟨rfl, by decide, fun db => ⟨?_, ?_⟩⟩ <;> rfl

/-- C7: for every accepted statement whose execution fails with a
database engine error, the returned value is the execution-error
message carrying the engine's native error text (which occurs inside
it as a suffix), and the cycle still returns a value — the engine
error never escapes as an exception. -/
theorem engine_error_is_returned (db : Str → DBResult) (s e : Str)
    (hacc : gate_accepts s = true) (hdb : db s = DBResult.err e) :
    (execute_prompt db s).output = some (sqlErrorMessage e) ∧
      e <:+ sqlErrorMessage e ∧
      (execute_prompt db s).output ≠ none := by
  have hout : (execute_prompt db s).output = some (sqlErrorMessage e) := by
    unfold execute_prompt
    unfold gate_accepts at hacc
    simp [hacc, hdb]
  exact ⟨hout, List.suffix_append _ e, by rw [hout]; exact Option.some_ne_none _⟩

/-- Witness for C7: a gate-accepted statement naming a missing table,
against an engine that reports a native error. -/
theorem engine_error_is_returned_witness :
    gate_accepts "SELECT * FROM Projects LIMIT 100".toList = true ∧
      dbFailure "SELECT * FROM Projects LIMIT 100".toList
        = DBResult.err "no such table: Projects".toList ∧
      (execute_prompt dbFailure "SELECT * FROM Projects LIMIT 100".toList).output
        = some (sqlErrorMessage "no such table: Projects".toList) :=
  ⟨by decide, rfl,
    (engine_error_is_returned dbFailure "SELECT * FROM Projects LIMIT 100".toList
      "no such table: Projects".toList (by decide) rfl).1⟩

/-! ### Distinctness of the four caller-visible outcome forms -/

/-- A formatted table always begins with a newline (the banner). -/
theorem finalAnswer_head (h : List Str) (r : List (List Str)) :
    (finalAnswer h r).head? = some '\n' := rfl

/-- An execution-error message always begins with `E`. -/
theorem sqlErrorMessage_head (e : Str) :
    (sqlErrorMessage e).head? = some 'E' := rfl

theorem noResults_ne_finalAnswer (h : List Str) (r : List (List Str)) :
    noResultsMessage ≠ finalAnswer h r := by
  intro hEq
  have h2 := finalAnswer_head h r
  rw [← hEq] at h2
  exact absurd h2 (by decide)

theorem noResults_ne_sqlError (e : Str) :
    noResultsMessage ≠ sqlErrorMessage e := by
  intro hEq
  have h2 := sqlErrorMessage_head e
  rw [← hEq] at h2
  exact absurd h2 (by decide)

theorem rejection_ne_finalAnswer (h : List Str) (r : List (List Str)) :
    rejectionMessage ≠ finalAnswer h r := by
  intro hEq
  have h2 := finalAnswer_head h r
  rw [← hEq] at h2
  exact absurd h2 (by decide)

theorem rejection_ne_sqlError (e : Str) :
    rejectionMessage ≠ sqlErrorMessage e := by
  intro hEq
  have h2 := sqlErrorMessage_head e
  rw [← hEq] at h2
  exact absurd h2 (by decide)

theorem finalAnswer_ne_sqlError (h : List Str) (r : List (List Str)) (e : Str) :
    finalAnswer h r ≠ sqlErrorMessage e := by
  intro hEq
  have h2 := finalAnswer_head h r
  rw [hEq, sqlErrorMessage_head] at h2
  exact absurd h2 (by decide)

/-- C5: an accepted SELECT statement that executes successfully with
zero rows yields exactly the distinct no-results message — which is
neither a formatted table (of any header and rows) nor an
execution-error message. -/
theorem empty_result_is_no_results (db : Str → DBResult) (s : Str)
    (hdr : List Str) (hacc : gate_accepts s = true)
    (_hsel : "SELECT".toList <+: normalized_sql s)
    (hdb : db s = DBResult.ok hdr []) :
    (execute_prompt db s).output = some noResultsMessage ∧
      (∀ (h : List Str) (r : List (List Str)), noResultsMessage ≠ finalAnswer h r) ∧
      (∀ e : Str, noResultsMessage ≠ sqlErrorMessage e) := by
  refine ⟨?_, noResults_ne_finalAnswer, noResults_ne_sqlError⟩
  unfold execute_prompt
  unfold gate_accepts at hacc
  simp [hacc, hdb]

/-- Witness for C5: a gate-accepted SELECT over a database stub that
returns zero rows. -/
theorem empty_result_is_no_results_witness :
    gate_accepts "SELECT name FROM Employees LIMIT 100".toList = true ∧
      ("SELECT".toList <+: normalized_sql "SELECT name FROM Employees LIMIT 100".toList) ∧
      dbEmptyResult "SELECT name FROM Employees LIMIT 100".toList
        = DBResult.ok ["name".toList] [] ∧
      (execute_prompt dbEmptyResult "SELECT name FROM Employees LIMIT 100".toList).output
        = some noResultsMessage :=
  ⟨by decide, by decide, rfl,
    (empty_result_is_no_results dbEmptyResult "SELECT name FROM Employees LIMIT 100".toList
      ["name".toList] (by decide) (by decide) rfl).1⟩

/-! ### C3: the rejection reason and the first token -/

/-- C3 (counterexample): the claim says the rejection reason surfaced to
the caller names the first token of the offending statement.  For the
rejected statement `UPDATE Employees SET salary = 0` the caller receives
the fixed rejection message, and the first token `UPDATE` does not occur
in it: the token is only named in the security log line. -/
theorem rejection_reason_counterexample :
    (execute_prompt dbStub "UPDATE Employees SET salary = 0".toList).output
        = some rejectionMessage ∧
      ¬ ("UPDATE".toList <:+: rejectionMessage) := by
  constructor
  · rfl
  · decide

/-- C3 (amended): for every rejected candidate statement with a first
token, the rejection reason recorded in the security log names the
first token of the offending normalized statement (it occurs inside the
log line), while the message returned to the caller is the fixed
rejection string. -/
theorem rejection_log_names_first_token (db : Str → DBResult) (s tok : Str)
    (hrej : gate_accepts s = false)
    (htok : firstToken (normalized_sql s) = some tok) :
    (execute_prompt db s).securityLog = some (securityLogMessage tok) ∧
      tok <:+: securityLogMessage tok ∧
      (execute_prompt db s).output = some rejectionMessage := by
  have hcycle : execute_prompt db s =
      { executed := [], securityLog := some (securityLogMessage tok),
        output := some rejectionMessage } := by
    unfold execute_prompt
    unfold gate_accepts at hrej
    simp [hrej, htok]
  refine ⟨by rw [hcycle], ?_, by rw [hcycle]⟩
  exact ⟨"❌ EXECUTE FAILURE: Security rejection of unauthorized command: ".toList,
    ".".toList, by simp [securityLogMessage]⟩

/-- Witness for the amended C3, at a rejected DML statement. -/
theorem rejection_log_names_first_token_witness :
    gate_accepts "DROP TABLE Employees".toList = false ∧
      firstToken (normalized_sql "DROP TABLE Employees".toList) = some "DROP".toList ∧
      (execute_prompt dbStub "DROP TABLE Employees".toList).securityLog
        = some (securityLogMessage "DROP".toList) :=
  ⟨by decide, by decide,
    (rejection_log_names_first_token dbStub "DROP TABLE Employees".toList "DROP".toList
      (by decide) (by decide)).1⟩

/-! ### C10 and C9: the empty-statement crash and the public surface -/

theorem isPySpace_toUpper {c : Char} (h : isPySpace c = true) : c.toUpper = c := by
  unfold isPySpace at h
  simp only [Bool.or_eq_true, beq_iff_eq] at h
  rcases h with ((((rfl | rfl) | rfl) | rfl) | rfl) | rfl <;> decide

/-- Normalizing an empty or all-whitespace statement yields the empty
string. -/
theorem normalized_sql_all_space {s : Str} (h : ∀ c ∈ s, isPySpace c = true) :
    normalized_sql s = [] := by
  have hup : ∀ c ∈ pyUpper s, isPySpace c = true := by
    intro c hc
    rcases List.mem_map.mp hc with ⟨a, ha, rfl⟩
    rw [isPySpace_toUpper (h a ha)]
    exact h a ha
  unfold normalized_sql pyStrip
  rw [List.dropWhile_eq_nil_iff.mpr hup]
  rfl

/-- C10: when the candidate statement is empty or all whitespace, the
Gate rejects it but the rejection path evaluates
`normalized_sql.split()[0]` on an empty token list, so `execute_prompt`
terminates with an unhandled `IndexError` (`output = none`) instead of
returning a rejection message; nothing is executed. -/
theorem empty_statement_crashes (db : Str → DBResult) (s : Str)
    (h : ∀ c ∈ s, isPySpace c = true) :
    (execute_prompt db s).output = none ∧
      (execute_prompt db s).executed = [] := by
  have hcycle : execute_prompt db s =
      { executed := [], securityLog := none, output := none } := by
    unfold execute_prompt
    rw [normalized_sql_all_space h]
    rfl
  exact ⟨by rw [hcycle], by rw [hcycle]⟩

/-- Witness for C10: a whitespace-only candidate statement. -/
theorem empty_statement_crashes_witness :
    (∀ c ∈ ("   ".toList : Str), isPySpace c = true) ∧
      (execute_prompt dbStub "   ".toList).output = none :=
  ⟨by decide, (empty_statement_crashes dbStub "   ".toList (by decide)).1⟩

/-- C9 (counterexample): the claim says the public operation returns a
string for every request.  When the completion service yields an empty
candidate statement, the cycle terminates with an unhandled exception
and no string is returned. -/
theorem public_surface_counterexample :
    (execute_prompt dbStub ("".toList : Str)).output = none := rfl

/-- C9 (amended): for every request whose candidate statement has at
least one token (or is accepted by the Gate), the operation returns a
string, and that string is one of exactly four outcome forms: the
rejection message, the no-results message, a formatted table, or an
execution-error message — forms that are pairwise distinct. -/
theorem returns_one_of_four_outcomes (db : Str → DBResult) (s : Str)
    (h : gate_accepts s = true ∨ firstToken (normalized_sql s) ≠ none) :
    (∃ out, (execute_prompt db s).output = some out ∧
        (out = rejectionMessage ∨ out = noResultsMessage ∨
          (∃ hd r, out = finalAnswer hd r) ∨ (∃ e, out = sqlErrorMessage e))) ∧
      rejectionMessage ≠ noResultsMessage ∧
      (∀ hd r, rejectionMessage ≠ finalAnswer hd r) ∧
      (∀ e, rejectionMessage ≠ sqlErrorMessage e) ∧
      (∀ hd r, noResultsMessage ≠ finalAnswer hd r) ∧
      (∀ e, noResultsMessage ≠ sqlErrorMessage e) ∧
      (∀ hd r e, finalAnswer hd r ≠ sqlErrorMessage e) := by
  refine ⟨?_, by decide, rejection_ne_finalAnswer, rejection_ne_sqlError,
    noResults_ne_finalAnswer, noResults_ne_sqlError, finalAnswer_ne_sqlError⟩
  unfold execute_prompt
  cases hb : allowed_pattern (normalized_sql s)
  · have htok : firstToken (normalized_sql s) ≠ none := by
      rcases h with h | h
      · unfold gate_accepts at h
        rw [hb] at h
        cases h
      · exact h
    rcases hopt : firstToken (normalized_sql s) with _ | tok
    · exact absurd hopt htok
    · exact ⟨rejectionMessage, by simp [hopt], Or.inl rfl⟩
  · cases hdb : db s with
    | err e => exact ⟨sqlErrorMessage e, by simp, Or.inr (Or.inr (Or.inr ⟨e, rfl⟩))⟩
    | ok header rows =>
      by_cases hr : rows.isEmpty
      · exact ⟨noResultsMessage, by simp [hr], Or.inr (Or.inl rfl)⟩
      · exact ⟨finalAnswer header rows, by simp [hr],
          Or.inr (Or.inr (Or.inl ⟨header, rows, rfl⟩))⟩

/-- Witness for the amended C9, at an accepted statement. -/
theorem returns_one_of_four_outcomes_witness :
    (gate_accepts "SELECT * FROM Employees LIMIT 100".toList = true ∨
        firstToken (normalized_sql "SELECT * FROM Employees LIMIT 100".toList) ≠ none) ∧
      (∃ out, (execute_prompt dbStub "SELECT * FROM Employees LIMIT 100".toList).output
          = some out ∧
        (out = rejectionMessage ∨ out = noResultsMessage ∨
          (∃ hd r, out = finalAnswer hd r) ∨ (∃ e, out = sqlErrorMessage e))) :=
  ⟨Or.inl (by decide),
    (returns_one_of_four_outcomes dbStub "SELECT * FROM Employees LIMIT 100".toList
      (Or.inl (by decide))).1⟩

/-! ### C8: formatting / re-parsing round trip

The source renders a result set with `finalAnswer`.  The spec's
round-trip property presupposes a re-parser for the rendered table; no
such parser exists in the repository, so one is modelled here from the
spec as the natural inverse of the rendering format. -/

/-- One rendered cell as it appears between two `|` bars: the cell text
with one added space on each side. -/
def padCell (c : Str) : Str := ' ' :: (c ++ [' '])

/-- Modelled from the spec: inverse of `padCell` — remove exactly one
leading and one trailing space. -/
def unpadCell (p : Str) : Option Str :=
  match p with
  | c :: rest =>
    if c = ' ' ∧ rest.getLast? = some ' ' then some rest.dropLast else none
  | [] => none

/-- Evaluate `f` on every element, succeeding only when all succeed. -/
def allSome {α : Type u} {β : Type v} (f : α → Option β) : List α → Option (List β)
  | [] => some []
  | x :: xs =>
    match f x, allSome f xs with
    | some y, some ys => some (y :: ys)
    | _, _ => none

/-- Remove an expected literal from the front of a string. -/
def dropLit : Str → Str → Option Str
  | [], s => some s
  | _ :: _, [] => none
  | p :: ps, c :: cs => if p = c then dropLit ps cs else none

/-- Modelled from the spec: re-parse one rendered table line.  The line
is split on `|`; the first and last fragments must be empty (the outer
bars), and each inner fragment is unpadded to recover a cell. -/
def parseRow (line : Str) : Option (List Str) :=
  match List.splitOn '|' line with
  | [] :: piece :: more =>
    if (piece :: more).getLast? = some ([] : Str) then
      allSome unpadCell ((piece :: more).dropLast)
    else none
  | _ => none

/-- Modelled from the spec: re-parse a rendered table.  The
`FINAL ANSWER` banner is removed, the body is split into lines, the
second line (the separator) is discarded, and the header line plus each
data line are re-parsed into column names and cell values. -/
def parseTable (t : Str) : Option (List Str × List (List Str)) :=
  (dropLit "\n\nFINAL ANSWER:\n".toList t).bind fun body =>
    match List.splitOn '\n' body with
    | headerLine :: _ :: firstRow :: moreRows =>
      (parseRow headerLine).bind fun hdr =>
        (allSome parseRow (firstRow :: moreRows)).map fun rws => (hdr, rws)
    | _ => none

theorem dropLit_append (p s : Str) : dropLit p (p ++ s) = some s := by
  induction p with
  | nil => rfl
  | cons c cs ih => simp [dropLit, ih]

theorem unpad_pad (c : Str) : unpadCell (padCell c) = some c := by
  simp [unpadCell, padCell, List.getLast?_concat, List.dropLast_concat]

theorem allSome_map_eq {α : Type u} {β : Type v} (f : β → Option α) (g : α → β)
    (l : List α) (h : ∀ x ∈ l, f (g x) = some x) :
    allSome f (l.map g) = some l := by
  induction l with
  | nil => rfl
  | cons x xs ih =>
    have hx := h x (List.mem_cons_self x xs)
    have hxs := ih fun y hy => h y (List.mem_cons_of_mem x hy)
    simp [allSome, hx, hxs]

theorem intercalate_cons_two (sep x y : Str) (zs : List Str) :
    List.intercalate sep (x :: y :: zs) = x ++ sep ++ List.intercalate sep (y :: zs) := by
  simp [List.intercalate]

theorem intercalate_cons_ne (sep x : Str) (L : List Str) (h : L ≠ []) :
    List.intercalate sep (x :: L) = x ++ sep ++ List.intercalate sep L := by
  cases L with
  | nil => cases h rfl
  | cons y ys => exact intercalate_cons_two sep x y ys

theorem intercalate_concat_nil (sep : Str) (L : List Str) (h : L ≠ []) :
    List.intercalate sep (L ++ [[]]) = List.intercalate sep L ++ sep := by
  induction L with
  | nil => cases h rfl
  | cons x xs ih =>
    cases xs with
    | nil => simp [List.intercalate]
    | cons y ys =>
      rw [List.cons_append, intercalate_cons_ne sep x _ (by simp),
        ih (List.cons_ne_nil _ _), intercalate_cons_two]
      simp [List.append_assoc]

/-- The interior of a rendered line (between the outer bars) is the
bar-intercalation of the padded cells. -/
theorem space_intercalate_eq (cells : List Str) (h : cells ≠ []) :
    ' ' :: (List.intercalate " | ".toList cells ++ [' ']) =
      List.intercalate ['|'] (cells.map padCell) := by
  induction cells with
  | nil => cases h rfl
  | cons c cs ih =>
    cases cs with
    | nil => simp [List.intercalate, padCell]
    | cons c2 cs2 =>
      have hsep : " | ".toList = [' ', '|', ' '] := rfl
      rw [intercalate_cons_two, List.map_cons,
        intercalate_cons_ne ['|'] (padCell c) _ (by simp),
        ← ih (List.cons_ne_nil _ _)]
      simp [padCell, hsep, List.append_assoc]

theorem renderRow_eq_intercalate (cells : List Str) (h : cells ≠ []) :
    renderRow cells = List.intercalate ['|'] ([] :: cells.map padCell ++ [[]]) := by
  obtain ⟨p, ps, hps⟩ : ∃ p ps, cells.map padCell = p :: ps := by
    cases hm : cells.map padCell with
    | nil => exact absurd (List.map_eq_nil_iff.mp hm) h
    | cons p ps => exact ⟨p, ps, rfl⟩
  have h1 : "| ".toList = ['|', ' '] := rfl
  have h2 : " |".toList = [' ', '|'] := rfl
  rw [hps, List.cons_append, List.cons_append, intercalate_cons_two,
    ← List.cons_append, intercalate_concat_nil _ _ (List.cons_ne_nil _ _), ← hps,
    ← space_intercalate_eq cells h]
  simp [renderRow, h1, h2]

theorem mem_intersperse {x sep : Str} :
    ∀ {xs : List Str}, x ∈ List.intersperse sep xs → x = sep ∨ x ∈ xs := by
  intro xs
  induction xs with
  | nil => intro h; simp at h
  | cons a as ih =>
    intro h
    cases as with
    | nil =>
      simp at h
      exact Or.inr (by simp [h])
    | cons b bs =>
      rw [List.intersperse_cons_cons] at h
      rcases List.mem_cons.mp h with rfl | h
      · exact Or.inr (List.mem_cons_self _ _)
      rcases List.mem_cons.mp h with rfl | h
      · exact Or.inl rfl
      · rcases ih h with rfl | hx
        · exact Or.inl rfl
        · exact Or.inr (List.mem_cons_of_mem _ hx)

theorem mem_of_mem_intercalate {c : Char} {sep : Str} {xs : List Str}
    (h : c ∈ List.intercalate sep xs) : c ∈ sep ∨ ∃ x ∈ xs, c ∈ x := by
  unfold List.intercalate at h
  rcases List.mem_flatten.mp h with ⟨l, hl, hc⟩
  rcases mem_intersperse hl with rfl | hx
  · exact Or.inl hc
  · exact Or.inr ⟨l, hx, hc⟩

theorem bar_not_mem_renderRow {cells : List Str} (h : ∀ c ∈ cells, '|' ∉ c) :
    ∀ l ∈ ([] : Str) :: cells.map padCell ++ [[]], '|' ∉ l := by
  intro l hl
  rcases List.mem_cons.mp hl with rfl | hl
  · simp
  rcases List.mem_append.mp hl with hl | hl
  · rcases List.mem_map.mp hl with ⟨c, hc, rfl⟩
    intro hbar
    rcases List.mem_cons.mp hbar with hb | hb
    · exact absurd hb (by decide)
    rcases List.mem_append.mp hb with hb | hb
    · exact h c hc hb
    · exact absurd (List.mem_singleton.mp hb) (by decide)
  · rw [List.mem_singleton.mp hl]
    simp

theorem splitOn_renderRow (cells : List Str) (hne : cells ≠ [])
    (hbar : ∀ c ∈ cells, '|' ∉ c) :
    List.splitOn '|' (renderRow cells) = [] :: cells.map padCell ++ [[]] := by
  rw [renderRow_eq_intercalate cells hne]
  exact List.splitOn_intercalate _ '|' (bar_not_mem_renderRow hbar) (by simp)

theorem parseRow_renderRow (cells : List Str) (hne : cells ≠ [])
    (hbar : ∀ c ∈ cells, '|' ∉ c) :
    parseRow (renderRow cells) = some cells := by
  obtain ⟨c0, cs, rfl⟩ : ∃ c0 cs, cells = c0 :: cs := by
    cases cells with
    | nil => exact absurd rfl hne
    | cons c0 cs => exact ⟨c0, cs, rfl⟩
  have hs := splitOn_renderRow (c0 :: cs) hne hbar
  rw [List.map_cons, List.cons_append, List.cons_append] at hs
  unfold parseRow
  rw [hs]
  have hlast : (padCell c0 :: (cs.map padCell ++ [[]])).getLast? = some ([] : Str) := by
    rw [← List.cons_append, List.getLast?_concat]
  have hdrop : (padCell c0 :: (cs.map padCell ++ [[]])).dropLast
      = padCell c0 :: cs.map padCell := by
    rw [← List.cons_append, List.dropLast_concat]
  show (if (padCell c0 :: (List.map padCell cs ++ [[]])).getLast? = some ([] : Str)
      then allSome unpadCell (padCell c0 :: (List.map padCell cs ++ [[]])).dropLast
      else none) = some (c0 :: cs)
  rw [if_pos hlast, hdrop, ← List.map_cons]
  exact allSome_map_eq unpadCell padCell (c0 :: cs) fun x _ => unpad_pad x

theorem newline_not_mem_renderRow {cells : List Str}
    (h : ∀ c ∈ cells, '\n' ∉ c) : '\n' ∉ renderRow cells := by
  intro hc
  unfold renderRow at hc
  rcases List.mem_append.mp hc with hc | hc
  · rcases List.mem_append.mp hc with hc | hc
    · exact absurd hc (by decide)
    · rcases mem_of_mem_intercalate hc with hc | ⟨x, hx, hcx⟩
      · exact absurd hc (by decide)
      · exact h x hx hcx
  · exact absurd hc (by decide)

theorem newline_not_mem_separator (hl : Str) : '\n' ∉ separatorLineFor hl := by
  intro hc
  unfold separatorLineFor at hc
  rcases List.mem_cons.mp hc with hc | hc
  · exact absurd hc (by decide)
  rcases List.mem_append.mp hc with hc | hc
  · exact absurd (List.eq_of_mem_replicate hc) (by decide)
  · exact absurd (List.mem_singleton.mp hc) (by decide)

/-- C8 (counterexample): the claim asserts the round trip for every
result set with at least one row and one column; it fails when a cell
value contains the column delimiter.  The one-column result set with
header `a | b` and cell `x | y` renders to the same table as the
two-column result set with headers `a`, `b` and cells `x`, `y`, so
re-parsing recovers the latter, not the original. -/
theorem roundtrip_counterexample :
    (["a | b".toList] : List Str) ≠ [] ∧
      ([["x | y".toList]] : List (List Str)) ≠ [] ∧
      parseTable (finalAnswer ["a | b".toList] [["x | y".toList]])
        ≠ some (["a | b".toList], [["x | y".toList]]) ∧
      parseTable (finalAnswer ["a | b".toList] [["x | y".toList]])
        = some (["a".toList, "b".toList], [["x".toList, "y".toList]]) := by
  exact ⟨by decide, by decide, by decide, by decide⟩

/-- C8 (amended): for every result set with at least one row and at
least one column, none of whose column names or string-rendered cell
values contains the bar delimiter or a newline, formatting the result
into the rendered table and re-parsing it recovers exactly the same
column names and cell values. -/
theorem parse_finalAnswer_roundtrip (header : List Str) (rows : List (List Str))
    (hh : header ≠ []) (hr : rows ≠ [])
    (hhc : ∀ c ∈ header, '|' ∉ c ∧ '\n' ∉ c)
    (hrc : ∀ row ∈ rows, row ≠ [] ∧ ∀ c ∈ row, '|' ∉ c ∧ '\n' ∉ c) :
    parseTable (finalAnswer header rows) = some (header, rows) := by
  unfold parseTable finalAnswer
  rw [dropLit_append]
  have hlines : List.splitOn '\n' (List.intercalate ['\n']
      (renderRow header :: separatorLineFor (renderRow header) :: rows.map renderRow))
      = renderRow header :: separatorLineFor (renderRow header) :: rows.map renderRow := by
    apply List.splitOn_intercalate _ '\n' _ (by simp)
    intro l hl
    rcases List.mem_cons.mp hl with rfl | hl
    · exact newline_not_mem_renderRow fun c hc => (hhc c hc).2
    rcases List.mem_cons.mp hl with rfl | hl
    · exact newline_not_mem_separator _
    · rcases List.mem_map.mp hl with ⟨row, hrow, rfl⟩
      exact newline_not_mem_renderRow fun c hc => ((hrc row hrow).2 c hc).2
  obtain ⟨r0, rs, rfl⟩ : ∃ r0 rs, rows = r0 :: rs := by
    cases rows with
    | nil => exact absurd rfl hr
    | cons r0 rs => exact ⟨r0, rs, rfl⟩
  rw [List.map_cons] at hlines ⊢
  simp only [Option.some_bind, hlines]
  rw [parseRow_renderRow header hh fun c hc => (hhc c hc).1]
  have hrows : allSome parseRow (renderRow r0 :: (rs.map renderRow)) = some (r0 :: rs) := by
    rw [← List.map_cons]
    apply allSome_map_eq
    intro row hrow
    exact parseRow_renderRow row (hrc row hrow).1 fun c hc => ((hrc row hrow).2 c hc).1
  rw [hrows]
  rfl

/-- Witness for the amended C8, at a concrete two-column, two-row
result set. -/
theorem parse_finalAnswer_roundtrip_witness :
    (["name".toList, "salary".toList] : List Str) ≠ [] ∧
      ([["Alice Smith".toList, "60000.0".toList],
        ["Bob Johnson".toList, "75000.0".toList]] : List (List Str)) ≠ [] ∧
      (∀ c ∈ (["name".toList, "salary".toList] : List Str), '|' ∉ c ∧ '\n' ∉ c) ∧
      (∀ row ∈ ([["Alice Smith".toList, "60000.0".toList],
          ["Bob Johnson".toList, "75000.0".toList]] : List (List Str)),
        row ≠ [] ∧ ∀ c ∈ row, '|' ∉ c ∧ '\n' ∉ c) ∧
      parseTable (finalAnswer ["name".toList, "salary".toList]
          [["Alice Smith".toList, "60000.0".toList],
            ["Bob Johnson".toList, "75000.0".toList]])
        = some (["name".toList, "salary".toList],
            [["Alice Smith".toList, "60000.0".toList],
              ["Bob Johnson".toList, "75000.0".toList]]) :=
  ⟨by decide, by decide, by decide, by decide,
    parse_finalAnswer_roundtrip _ _ (by decide) (by decide) (by decide) (by decide)⟩

end SqliteAgent
